import Mathlib

/-!
The kbot message handler and its telemetry.

A shallow embedding of `cmd/kbot.go` (the `telebot.OnText` handler registered in
`kbotCmd.Run`), `cmd/metrics.go` (`RecordMessage`) and `cmd/tracing.go`
(`StartSpan`, `GetTraceID`, `IsTracingEnabled`).

Strings are sequences of Unicode code points (Telegram delivers valid UTF-8).
The handler is a state-passing function over a `World` that holds the calls
made so far (span operations, replies, metric records, log lines), the span id
supply and the two metric vectors.
-/

namespace Kbot

/-! ## Go library functions used by the handler -/

/-- Go `unicode.ToLower`: ASCII is handled inline; every other rune goes through
the Unicode case table of the Go release (`unicode.To(unicode.LowerCase, r)`),
which is the parameter `tbl`. -/
def unicodeToLower (tbl : Char → Char) (r : Char) : Char :=
  if r.toNat ≤ 127 then
    if 65 ≤ r.toNat ∧ r.toNat ≤ 90 then Char.ofNat (r.toNat + 32) else r
  else tbl r

/-- Go `strings.ToLower`: every rune mapped by `unicode.ToLower`. -/
def ToLower (tbl : Char → Char) (s : String) : String :=
  ⟨s.data.map (unicodeToLower tbl)⟩

/-- Go `unicode.IsSpace`: the Latin-1 spaces and the `White_Space` table. -/
def IsSpace (r : Char) : Bool :=
  let n := r.toNat
  if n ≤ 255 then
    n = 9 || n = 10 || n = 11 || n = 12 || n = 13 || n = 32 || n = 133 || n = 160
  else
    n = 5760 || (8192 ≤ n && n ≤ 8202) || n = 8232 || n = 8233 || n = 8239 ||
      n = 8287 || n = 12288

/-- Go `strings.TrimSpace`: leading and trailing white space removed. -/
def TrimSpace (s : String) : String :=
  ⟨(s.data.dropWhile IsSpace).rdropWhile IsSpace⟩

/-- Go `strings.HasPrefix`. -/
def HasPrefix (s pre : String) : Bool :=
  pre.data.isPrefixOf s.data

/-- Go `strings.TrimPrefix`: `s` without the leading `pre`, or `s` itself when it
does not start with `pre`. -/
def TrimPrefix (s pre : String) : String :=
  if HasPrefix s pre then ⟨s.data.drop pre.data.length⟩ else s

/-- Wrap an integer to the range of `int64`. -/
def toInt64 (x : Int) : Int :=
  (x + 2 ^ 63) % 2 ^ 64 - 2 ^ 63

/-- The largest `time.Duration`. -/
def maxDuration : Int := 2 ^ 63 - 1

/-- The smallest `time.Duration`. -/
def minDuration : Int := -(2 ^ 63)

/-- Go `time.subMono`: the difference of two monotonic clock readings as a
`Duration` (int64 nanoseconds), saturating on overflow. -/
def subMono (t u : Int) : Int :=
  let d := toInt64 (t - u)
  if d < 0 ∧ t > u then maxDuration
  else if d > 0 ∧ t < u then minDuration
  else d

/-- Go `time.Since(start)` for a start time that carries a monotonic reading:
`now` is the monotonic reading taken inside the call. -/
def Since (start now : Int) : Int :=
  subMono now start

/-- The calendar fields of a wall-clock reading. -/
structure CivilTime where
  year : Nat
  month : Nat
  day : Nat
  hour : Nat
  minute : Nat
  second : Nat
deriving DecidableEq, Repr

/-- Go `time.appendInt` on a non-negative value: decimal digits, zero-padded on
the left to `width`. -/
def appendInt (x width : Nat) : List Char :=
  let ds := Nat.toDigits 10 x
  List.replicate (width - ds.length) '0' ++ ds

/-- Go `Time.Format("2006-01-02 15:04:05")`. -/
def formatTime (t : CivilTime) : String :=
  ⟨appendInt t.year 4 ++ '-' :: appendInt t.month 2 ++ '-' :: appendInt t.day 2 ++
    ' ' :: appendInt t.hour 2 ++ ':' :: appendInt t.minute 2 ++ ':' ::
    appendInt t.second 2⟩

/-! ## Errors, messages, spans -/

/-- A Go `error` value, observed through `Error()`. -/
structure GoError where
  msg : String
deriving DecidableEq, Repr

/-- The `telebot.User` fields the handler reads. -/
structure User where
  ID : Int
  Username : String
deriving DecidableEq, Repr

/-- The inbound text update as the handler sees it through `telebot.Context`:
`Sender()`, `Text()` and `Message().Payload`. -/
structure Message where
  Sender : User
  Text : String
  Payload : String
deriving DecidableEq, Repr

/-- The identity of a started span (`trace.SpanContext`). -/
structure SpanContext where
  traceID : String
  spanID : Nat
deriving DecidableEq, Repr

/-- A `trace.Span` handle: the no-op span or a recording span. -/
inductive Span where
  | noop
  | recording (sc : SpanContext)
deriving DecidableEq, Repr

/-- The `context.Context` as far as tracing reads it: the active span, if any. -/
structure Context where
  active : Option SpanContext
deriving DecidableEq, Repr

/-- Span kinds (`trace.SpanKind`). -/
inductive SpanKind where
  | Internal
  | Server
deriving DecidableEq, Repr

/-- Span status codes (`codes.Code`). -/
inductive Code where
  | Unset
  | Error
  | Ok
deriving DecidableEq, Repr

/-- An `attribute.KeyValue`. -/
inductive KeyValue where
  | Int64 (key : String) (value : Int)
  | String (key : String) (value : String)
deriving DecidableEq, Repr

/-- An argument of a `log.Printf` call. -/
inductive LogArg where
  | str (s : String)
  | duration (d : Int)
deriving DecidableEq, Repr

/-- The calls the handler makes on its collaborators, in program order. -/
inductive Event where
  | spanStart (sc : SpanContext) (name : String) (parent : Option SpanContext)
      (kind : SpanKind)
  | setAttributes (s : Span) (kvs : List KeyValue)
  | recordError (s : Span) (err : GoError)
  | setStatus (s : Span) (code : Code) (description : String)
  | spanEnd (s : Span)
  | send (what : String)
  | recordMessage (command status : String) (duration : Int)
  | log (format : String) (args : List LogArg)
deriving DecidableEq, Repr

/-- The installed tracer (`var tracer trace.Tracer`): the trace id it gives a
span started without a parent. -/
structure Tracer where
  newTraceID : String
deriving DecidableEq, Repr

/-- The process state the handler reads and writes. -/
structure World where
  /-- Calls made so far, oldest first. -/
  trace : List Event
  /-- The next unused span id. -/
  nextSpanID : Nat
  /-- The samples of `kbot_messages_total{command,status}`. -/
  messagesTotal : String → String → Nat
  /-- The observations of `kbot_message_processing_duration_seconds{command}`,
  as durations in nanoseconds, oldest first. -/
  messageProcessingDuration : String → List Int

/-- The clock readings taken while one message is handled. -/
structure Clock where
  /-- Monotonic reading of `startTime := time.Now()`. -/
  startMono : Int
  /-- Wall reading of the `time.Now()` of the `time` branch. -/
  wall : CivilTime
  /-- Monotonic reading taken by `time.Since(startTime)`. -/
  endMono : Int

/-- What the handler closes over or calls out to. -/
structure Env where
  /-- Package variable `appVersion`, declared outside these files. -/
  appVersion : String
  /-- The Unicode lower-case table of the Go release. -/
  caseTable : Char → Char
  /-- Package variable `tracer`; `none` is Go `nil`. -/
  tracer : Option Tracer
  /-- The transport: the outcome of `m.Send(response)`, `none` being a nil
  error. -/
  send : String → Option GoError
  /-- The clock readings of this run. -/
  clock : Clock

/-- Append a call to the trace. -/
def World.emit (w : World) (e : Event) : World :=
  { w with trace := w.trace ++ [e] }

/-- The context the handler closes over: `context.WithCancel(context.Background())`,
which carries no span. -/
def Context.background : Context := ⟨none⟩

/-- Go `trace.SpanFromContext`. -/
def SpanFromContext (ctx : Context) : Span :=
  match ctx.active with
  | none => Span.noop
  | some sc => Span.recording sc

/-- The trace id of the all-zero `TraceID`, which `HasTraceID` rejects. -/
def zeroTraceID : String := "00000000000000000000000000000000"

/-- Go `span.SpanContext().HasTraceID()`. -/
def Span.HasTraceID : Span → Bool
  | Span.noop => false
  | Span.recording sc => sc.traceID != zeroTraceID

/-- Go `span.SpanContext().TraceID().String()`. -/
def Span.TraceIDString : Span → String
  | Span.noop => zeroTraceID
  | Span.recording sc => sc.traceID

/-- Go `tracer.Start(ctx, name, opts...)`: a new recording span, child of the
span active in `ctx`. -/
def Tracer.Start (t : Tracer) (ctx : Context) (name : String) (kind : SpanKind)
    (w : World) : Context × Span × World :=
  let traceID := match ctx.active with
    | none => t.newTraceID
    | some p => p.traceID
  let sc : SpanContext := ⟨traceID, w.nextSpanID⟩
  let w := { w with nextSpanID := w.nextSpanID + 1 }
  (⟨some sc⟩, Span.recording sc, w.emit (Event.spanStart sc name ctx.active kind))

/-- `StartSpan` of `cmd/tracing.go`. -/
def StartSpan (tracer : Option Tracer) (ctx : Context) (name : String)
    (kind : SpanKind) (w : World) : Context × Span × World :=
  match tracer with
  | none => (ctx, SpanFromContext ctx, w)
  | some t => t.Start ctx name kind w

/-- `GetTraceID` of `cmd/tracing.go`. -/
def GetTraceID (ctx : Context) : String :=
  let span := SpanFromContext ctx
  if span.HasTraceID then span.TraceIDString else ""

/-- `IsTracingEnabled` of `cmd/tracing.go`, as a function of the values of
`OTEL_EXPORTER_OTLP_ENDPOINT` and `OTEL_TRACING_ENABLED`. -/
def IsTracingEnabled (endpoint flag : String) : Bool :=
  endpoint != "" || flag == "true"

/-- `RecordMessage` of `cmd/metrics.go`. -/
def RecordMessage (command status : String) (duration : Int) (w : World) : World :=
  let w := w.emit (Event.recordMessage command status duration)
  { w with
    messagesTotal := fun c s =>
      if c = command ∧ s = status then w.messagesTotal c s + 1 else w.messagesTotal c s
    messageProcessingDuration := fun c =>
      if c = command then w.messageProcessingDuration c ++ [duration]
      else w.messageProcessingDuration c }

/-! ## The handler -/

/-- Lines 131-135 of `cmd/kbot.go`: the command text the switch sees. -/
def normalizeCommand (tbl : Char → Char) (payload text : String) : String :=
  let command := TrimSpace payload
  let command := if command = "" then TrimPrefix text "/" else command
  ToLower tbl command

/-- The tail every branch of the switch shares: send the reply, record a send
error on the branch span, close the branch span. -/
def sendReply (env : Env) (cmdSpan : Span) (response : String) (w : World) :
    Option GoError × World :=
  let sendErr := env.send response
  let w := w.emit (Event.send response)
  let w := match sendErr with
    | some e => (w.emit (Event.recordError cmdSpan e)).emit
        (Event.setStatus cmdSpan Code.Error e.msg)
    | none => w
  (sendErr, w.emit (Event.spanEnd cmdSpan))

/-- One branch of the switch: open the branch span, build the reply, send it. -/
def runBranch (env : Env) (ctx : Context) (command spanName response : String)
    (w : World) : String × String × Option GoError × World :=
  let r := StartSpan env.tracer ctx spanName SpanKind.Internal w
  let s := sendReply env r.2.1 response r.2.2
  (command, response, s.1, s.2)

/-- Lines 144-177 of `cmd/kbot.go`: the switch on the normalized command. It
yields the command label, the response, the send error and the new state. -/
def dispatch (env : Env) (ctx : Context) (command : String) (w : World) :
    String × String × Option GoError × World :=
  if command = "hello" then
    runBranch env ctx "hello" "command_hello"
      ("Hello I\x27m Kbot " ++ env.appVersion ++ "!") w
  else if command = "time" then
    runBranch env ctx "time" "command_time"
      ("Current time is " ++ formatTime env.clock.wall) w
  else
    runBranch env ctx "unknown" "command_default"
      "Hello from Kbot! Try hello or time" w

/-- The `telebot.OnText` handler of `kbotCmd.Run` (lines 102-206). -/
def handleText (env : Env) (m : Message) (w : World) : Option GoError × World :=
  let r := StartSpan env.tracer Context.background "handle_message" SpanKind.Server w
  let ctx := r.1
  let span := r.2.1
  let w := r.2.2
  let startTime := env.clock.startMono
  let traceID := GetTraceID ctx
  let w := w.emit (Event.setAttributes span
    [KeyValue.Int64 "telegram.user_id" m.Sender.ID,
     KeyValue.String "telegram.username" m.Sender.Username,
     KeyValue.String "telegram.message" m.Text])
  let w :=
    if traceID ≠ "" then
      w.emit (Event.log "[TraceID: %s] Received message from %s: %s"
        [LogArg.str traceID, LogArg.str m.Sender.Username, LogArg.str m.Text])
    else
      w.emit (Event.log "Received message from %s: %s"
        [LogArg.str m.Sender.Username, LogArg.str m.Text])
  let d := dispatch env ctx (normalizeCommand env.caseTable m.Payload m.Text) w
  let command := d.1
  let response := d.2.1
  let sendErr := d.2.2.1
  let w := d.2.2.2
  let w := w.emit (Event.setAttributes span
    [KeyValue.String "command" command, KeyValue.String "response" response])
  let duration := Since startTime env.clock.endMono
  let status := if sendErr.isSome then "error" else "success"
  let w := match sendErr with
    | some e => (w.emit (Event.recordError span e)).emit
        (Event.setStatus span Code.Error e.msg)
    | none => w.emit (Event.setStatus span Code.Ok "")
  let w := RecordMessage command status duration w
  let w :=
    if traceID ≠ "" then
      w.emit (Event.log "[TraceID: %s] Processed %s command in %v (status: %s)"
        [LogArg.str traceID, LogArg.str command, LogArg.duration duration,
         LogArg.str status])
    else w
  (sendErr, w.emit (Event.spanEnd span))

/-! ## Observations on a run -/

/-- The calls one run of the handler adds to the trace. -/
def callsOf (env : Env) (m : Message) (w : World) : List Event :=
  (handleText env m w).2.trace.drop w.trace.length

/-- The span handle the handler uses as its root span. -/
def rootSpan (env : Env) (w : World) : Span :=
  (StartSpan env.tracer Context.background "handle_message" SpanKind.Server w).2.1

/-- The replies sent, in order. -/
def replies (evs : List Event) : List String :=
  evs.filterMap fun e => match e with
    | Event.send r => some r
    | _ => none

/-- The arguments of the `RecordMessage` calls, in order. -/
def recordCalls (evs : List Event) : List (String × String × Int) :=
  evs.filterMap fun e => match e with
    | Event.recordMessage c s d => some (c, s, d)
    | _ => none

/-- The attribute lists of the `SetAttributes` calls, in order. -/
def attrWrites (evs : List Event) : List (List KeyValue) :=
  evs.filterMap fun e => match e with
    | Event.setAttributes _ kvs => some kvs
    | _ => none

/-- The call is a span operation: a span start, or `SetAttributes`,
`RecordError`, `SetStatus` or `End` on a span. -/
def Event.isSpanOp : Event → Bool
  | Event.spanStart _ _ _ _ => true
  | Event.setAttributes _ _ => true
  | Event.recordError _ _ => true
  | Event.setStatus _ _ _ => true
  | Event.spanEnd _ => true
  | _ => false

/-- The call is a `log.Printf`. -/
def Event.isLog : Event → Bool
  | Event.log _ _ => true
  | _ => false

/-- The calls that are not span operations, in order. -/
def withoutSpanOps (evs : List Event) : List Event :=
  evs.filter fun e => !e.isSpanOp

/-- The `log.Printf` calls, in order. -/
def logCalls (evs : List Event) : List Event :=
  evs.filter Event.isLog

/-- The spans started, in order. -/
def opened (evs : List Event) : List SpanContext :=
  evs.filterMap fun e => match e with
    | Event.spanStart sc _ _ _ => some sc
    | _ => none

/-- The call closes the recording span `sc`. -/
def Event.closes (sc : SpanContext) (e : Event) : Bool :=
  e = Event.spanEnd (Span.recording sc)

/-- The call writes to the recording span `sc`: `SetAttributes`, `RecordError`
or `SetStatus` on it. -/
def Event.writesTo (sc : SpanContext) : Event → Bool
  | Event.setAttributes s _ => s = Span.recording sc
  | Event.recordError s _ => s = Span.recording sc
  | Event.setStatus s _ _ => s = Span.recording sc
  | _ => false

/-- The call is a `RecordMessage`. -/
def Event.isRecord : Event → Bool
  | Event.recordMessage _ _ _ => true
  | _ => false

/-- The call starts the span `sc`. -/
def Event.starts (sc : SpanContext) : Event → Bool
  | Event.spanStart s _ _ _ => s = sc
  | _ => false

/-- The call starts a span. -/
def Event.isStart : Event → Bool
  | Event.spanStart _ _ _ _ => true
  | _ => false

/-- No call satisfying `p` comes after a call satisfying `q`. -/
def noneAfter (q p : Event → Bool) : List Event → Bool
  | [] => true
  | e :: es => (if q e then es.all (fun x => !p x) else true) && noneAfter q p es

/-- The calls that are neither span operations nor log lines, in order: the
replies and the metric records. -/
def effects (evs : List Event) : List Event :=
  evs.filter fun e => !e.isSpanOp && !e.isLog

/-- Some call satisfying `p` is followed, later, by a call satisfying `q`. -/
def occursBefore (p q : Event → Bool) : List Event → Bool
  | [] => false
  | e :: es => (p e && es.any q) || occursBefore p q es

/-- The environment with the package variable `tracer` replaced. -/
def Env.withTracer (env : Env) (tracer : Option Tracer) : Env :=
  ⟨env.appVersion, env.caseTable, tracer, env.send, env.clock⟩

/-- A sample state: nothing traced, no sample recorded. -/
def sampleWorld : World := ⟨[], 0, fun _ _ => 0, fun _ => []⟩

/-- A sample environment: tracer installed, sends succeed, 150ns elapse. -/
def sampleEnv : Env :=
  ⟨"v1.0.0", fun c => c, some ⟨"4bf92f3577b34da6a3ce929d0e0e4736"⟩, fun _ => none,
    ⟨100, ⟨2024, 3, 9, 7, 5, 1⟩, 250⟩⟩

/-! ## Reference definitions of the normalization -/

/-- The normalization as the specification words it: the payload if present
(non-empty), else the raw text with one leading `/` stripped; lowercased; leading
and trailing white space trimmed. -/
def specNormalize (tbl : Char → Char) (payload text : String) : String :=
  TrimSpace (ToLower tbl (if payload ≠ "" then payload else TrimPrefix text "/"))

/-- The normalization with the trimming moved to where the handler does it: the
trimmed payload if that is non-empty, else the raw text with one leading `/`
stripped and not trimmed; lowercased. -/
def amendedNormalize (tbl : Char → Char) (payload text : String) : String :=
  ToLower tbl (if TrimSpace payload ≠ "" then TrimSpace payload else TrimPrefix text "/")

/-! ## Closed forms used by the proofs -/

/-- The label the switch of `dispatch` assigns to a normalized command. -/
def labelOf (command : String) : String :=
  if command = "hello" then "hello" else if command = "time" then "time" else "unknown"

/-- The name of the branch span the switch opens. -/
def spanNameOf (command : String) : String :=
  if command = "hello" then "command_hello"
  else if command = "time" then "command_time" else "command_default"

/-- The reply the switch builds. -/
def responseOf (env : Env) (command : String) : String :=
  if command = "hello" then "Hello I\x27m Kbot " ++ env.appVersion ++ "!"
  else if command = "time" then "Current time is " ++ formatTime env.clock.wall
  else "Hello from Kbot! Try hello or time"

/-- The calls a failed send adds on a span: `RecordError` then `SetStatus`. -/
def errorCalls (s : Span) : Option GoError → List Event
  | none => []
  | some e => [Event.recordError s e, Event.setStatus s Code.Error e.msg]

/-- The status calls on the root span after the switch. -/
def statusCalls (s : Span) : Option GoError → List Event
  | none => [Event.setStatus s Code.Ok ""]
  | some e => [Event.recordError s e, Event.setStatus s Code.Error e.msg]

/-- The status label handed to `RecordMessage`. -/
def statusOf (sendErr : Option GoError) : String :=
  if sendErr.isSome then "error" else "success"

/-- The first log line of the handler, by trace id. -/
def receivedLog (traceID : String) (m : Message) : Event :=
  Event.log
    (if traceID ≠ "" then "[TraceID: %s] Received message from %s: %s"
      else "Received message from %s: %s")
    (if traceID ≠ "" then
      [LogArg.str traceID, LogArg.str m.Sender.Username, LogArg.str m.Text]
      else [LogArg.str m.Sender.Username, LogArg.str m.Text])

/-- The completion log line of the handler, written only with a trace id. -/
def processedLog (traceID command status : String) (duration : Int) : List Event :=
  if traceID ≠ "" then
    [Event.log "[TraceID: %s] Processed %s command in %v (status: %s)"
      [LogArg.str traceID, LogArg.str command, LogArg.duration duration,
       LogArg.str status]]
  else []

/-- The attributes written on the root span before the switch. -/
def messageAttrs (m : Message) : List KeyValue :=
  [KeyValue.Int64 "telegram.user_id" m.Sender.ID,
   KeyValue.String "telegram.username" m.Sender.Username,
   KeyValue.String "telegram.message" m.Text]

theorem dispatch_eq (env : Env) (ctx : Context) (c : String) (w : World) :
    dispatch env ctx c w =
      runBranch env ctx (labelOf c) (spanNameOf c) (responseOf env c) w := by
  unfold dispatch labelOf spanNameOf responseOf
  split_ifs <;> rfl

theorem sendReply_fst (env : Env) (s : Span) (r : String) (w : World) :
    (sendReply env s r w).1 = env.send r := rfl

theorem sendReply_trace (env : Env) (s : Span) (r : String) (w : World) :
    (sendReply env s r w).2.trace =
      w.trace ++ (Event.send r :: (errorCalls s (env.send r) ++ [Event.spanEnd s])) := by
  simp only [sendReply]
  cases env.send r <;> simp [World.emit, errorCalls]

theorem sendReply_messagesTotal (env : Env) (s : Span) (r : String) (w : World) :
    (sendReply env s r w).2.messagesTotal = w.messagesTotal := by
  simp only [sendReply]
  cases env.send r <;> rfl

theorem sendReply_durations (env : Env) (s : Span) (r : String) (w : World) :
    (sendReply env s r w).2.messageProcessingDuration = w.messageProcessingDuration := by
  simp only [sendReply]
  cases env.send r <;> rfl

@[simp] theorem replies_nil : replies [] = [] := rfl

@[simp] theorem replies_cons (e : Event) (l : List Event) :
    replies (e :: l) = (match e with
      | Event.send r => [r]
      | _ => []) ++ replies l := by
  cases e <;> simp [replies, List.filterMap_cons]

@[simp] theorem replies_append (l₁ l₂ : List Event) :
    replies (l₁ ++ l₂) = replies l₁ ++ replies l₂ := by
  simp [replies, List.filterMap_append]

@[simp] theorem recordCalls_nil : recordCalls [] = [] := rfl

@[simp] theorem recordCalls_cons (e : Event) (l : List Event) :
    recordCalls (e :: l) = (match e with
      | Event.recordMessage c s d => [(c, s, d)]
      | _ => []) ++ recordCalls l := by
  cases e <;> simp [recordCalls, List.filterMap_cons]

@[simp] theorem recordCalls_append (l₁ l₂ : List Event) :
    recordCalls (l₁ ++ l₂) = recordCalls l₁ ++ recordCalls l₂ := by
  simp [recordCalls, List.filterMap_append]

@[simp] theorem attrWrites_nil : attrWrites [] = [] := rfl

@[simp] theorem attrWrites_cons (e : Event) (l : List Event) :
    attrWrites (e :: l) = (match e with
      | Event.setAttributes _ kvs => [kvs]
      | _ => []) ++ attrWrites l := by
  cases e <;> simp [attrWrites, List.filterMap_cons]

@[simp] theorem attrWrites_append (l₁ l₂ : List Event) :
    attrWrites (l₁ ++ l₂) = attrWrites l₁ ++ attrWrites l₂ := by
  simp [attrWrites, List.filterMap_append]

@[simp] theorem replies_errorCalls (s : Span) (o : Option GoError) :
    replies (errorCalls s o) = [] := by
  cases o <;> simp [errorCalls]

@[simp] theorem replies_statusCalls (s : Span) (o : Option GoError) :
    replies (statusCalls s o) = [] := by
  cases o <;> simp [statusCalls]

@[simp] theorem replies_processedLog (t c st : String) (d : Int) :
    replies (processedLog t c st d) = [] := by
  unfold processedLog; split_ifs <;> simp

@[simp] theorem recordCalls_errorCalls (s : Span) (o : Option GoError) :
    recordCalls (errorCalls s o) = [] := by
  cases o <;> simp [errorCalls]

@[simp] theorem recordCalls_statusCalls (s : Span) (o : Option GoError) :
    recordCalls (statusCalls s o) = [] := by
  cases o <;> simp [statusCalls]

@[simp] theorem recordCalls_processedLog (t c st : String) (d : Int) :
    recordCalls (processedLog t c st d) = [] := by
  unfold processedLog; split_ifs <;> simp

@[simp] theorem attrWrites_errorCalls (s : Span) (o : Option GoError) :
    attrWrites (errorCalls s o) = [] := by
  cases o <;> simp [errorCalls]

@[simp] theorem attrWrites_statusCalls (s : Span) (o : Option GoError) :
    attrWrites (statusCalls s o) = [] := by
  cases o <;> simp [statusCalls]

@[simp] theorem attrWrites_processedLog (t c st : String) (d : Int) :
    attrWrites (processedLog t c st d) = [] := by
  unfold processedLog; split_ifs <;> simp

@[simp] theorem effects_nil : effects [] = [] := rfl

@[simp] theorem effects_cons (e : Event) (l : List Event) :
    effects (e :: l) = (if e.isSpanOp || e.isLog then [] else [e]) ++ effects l := by
  cases h : e.isSpanOp <;> cases h2 : e.isLog <;> simp [effects, List.filter_cons, h, h2]

@[simp] theorem effects_append (l₁ l₂ : List Event) :
    effects (l₁ ++ l₂) = effects l₁ ++ effects l₂ := by
  simp [effects, List.filter_append]

@[simp] theorem effects_errorCalls (s : Span) (o : Option GoError) :
    effects (errorCalls s o) = [] := by
  cases o <;> simp [errorCalls, Event.isSpanOp]

@[simp] theorem effects_statusCalls (s : Span) (o : Option GoError) :
    effects (statusCalls s o) = [] := by
  cases o <;> simp [statusCalls, Event.isSpanOp]

@[simp] theorem effects_processedLog (t c st : String) (d : Int) :
    effects (processedLog t c st d) = [] := by
  unfold processedLog; split_ifs <;> simp [Event.isLog]

@[simp] theorem logCalls_nil : logCalls [] = [] := rfl

@[simp] theorem logCalls_cons (e : Event) (l : List Event) :
    logCalls (e :: l) = (if e.isLog then [e] else []) ++ logCalls l := by
  cases h : e.isLog <;> simp [logCalls, List.filter_cons, h]

@[simp] theorem logCalls_append (l₁ l₂ : List Event) :
    logCalls (l₁ ++ l₂) = logCalls l₁ ++ logCalls l₂ := by
  simp [logCalls, List.filter_append]

@[simp] theorem logCalls_errorCalls (s : Span) (o : Option GoError) :
    logCalls (errorCalls s o) = [] := by
  cases o <;> simp [errorCalls, Event.isLog]

@[simp] theorem logCalls_statusCalls (s : Span) (o : Option GoError) :
    logCalls (statusCalls s o) = [] := by
  cases o <;> simp [statusCalls, Event.isLog]

@[simp] theorem logCalls_processedLog (t c st : String) (d : Int) :
    logCalls (processedLog t c st d) = processedLog t c st d := by
  unfold processedLog; split_ifs <;> simp [Event.isLog]

theorem mem_errorCalls (x : Event) (s : Span) (o : Option GoError) :
    x ∈ errorCalls s o ↔
      ∃ e, o = some e ∧ (x = Event.recordError s e ∨ x = Event.setStatus s Code.Error e.msg) := by
  cases o <;> simp [errorCalls]

theorem mem_statusCalls (x : Event) (s : Span) (o : Option GoError) :
    x ∈ statusCalls s o ↔
      (o = none ∧ x = Event.setStatus s Code.Ok "") ∨
      ∃ e, o = some e ∧ (x = Event.recordError s e ∨ x = Event.setStatus s Code.Error e.msg) := by
  cases o <;> simp [statusCalls]

theorem mem_processedLog (x : Event) (t c st : String) (d : Int) :
    x ∈ processedLog t c st d ↔
      t ≠ "" ∧ x = Event.log "[TraceID: %s] Processed %s command in %v (status: %s)"
        [LogArg.str t, LogArg.str c, LogArg.duration d, LogArg.str st] := by
  unfold processedLog; split_ifs with h <;> simp [h]

/-- The return value of the handler is the outcome of sending the reply. -/
theorem handleText_fst (env : Env) (m : Message) (w : World) :
    (handleText env m w).1 =
      env.send (responseOf env (normalizeCommand env.caseTable m.Payload m.Text)) := by
  simp only [handleText, dispatch_eq, runBranch, sendReply_fst]

/-- The calls of a run without a tracer. -/
theorem callsOf_none (env : Env) (m : Message) (w : World) (h : env.tracer = none) :
    callsOf env m w =
      (let c := normalizeCommand env.caseTable m.Payload m.Text
       let r := responseOf env c
       [Event.setAttributes Span.noop (messageAttrs m), receivedLog "" m, Event.send r] ++
        errorCalls Span.noop (env.send r) ++
        [Event.spanEnd Span.noop,
         Event.setAttributes Span.noop
          [KeyValue.String "command" (labelOf c), KeyValue.String "response" r]] ++
        statusCalls Span.noop (env.send r) ++
        [Event.recordMessage (labelOf c) (statusOf (env.send r))
          (Since env.clock.startMono env.clock.endMono),
         Event.spanEnd Span.noop]) := by
  simp only [callsOf, handleText, dispatch_eq, runBranch, sendReply_fst, sendReply_trace, h,
    StartSpan, SpanFromContext, Context.background, GetTraceID, Span.HasTraceID,
    RecordMessage, World.emit]
  cases env.send (responseOf env (normalizeCommand env.caseTable m.Payload m.Text)) <;>
    simp [errorCalls, statusCalls, statusOf, receivedLog, messageAttrs]

/-- The calls of a run with a tracer installed. -/
theorem callsOf_some (env : Env) (m : Message) (w : World) (t : Tracer)
    (h : env.tracer = some t) :
    callsOf env m w =
      (let c := normalizeCommand env.caseTable m.Payload m.Text
       let r := responseOf env c
       let root : SpanContext := ⟨t.newTraceID, w.nextSpanID⟩
       let child : SpanContext := ⟨t.newTraceID, w.nextSpanID + 1⟩
       let tid := GetTraceID ⟨some root⟩
       let d := Since env.clock.startMono env.clock.endMono
       [Event.spanStart root "handle_message" none SpanKind.Server,
        Event.setAttributes (Span.recording root) (messageAttrs m),
        receivedLog tid m,
        Event.spanStart child (spanNameOf c) (some root) SpanKind.Internal,
        Event.send r] ++
        errorCalls (Span.recording child) (env.send r) ++
        [Event.spanEnd (Span.recording child),
         Event.setAttributes (Span.recording root)
          [KeyValue.String "command" (labelOf c), KeyValue.String "response" r]] ++
        statusCalls (Span.recording root) (env.send r) ++
        [Event.recordMessage (labelOf c) (statusOf (env.send r)) d] ++
        processedLog tid (labelOf c) (statusOf (env.send r)) d ++
        [Event.spanEnd (Span.recording root)]) := by
  simp only [callsOf, handleText, dispatch_eq, runBranch, sendReply_fst, sendReply_trace, h,
    StartSpan, Tracer.Start, Context.background, RecordMessage, World.emit]
  cases env.send (responseOf env (normalizeCommand env.caseTable m.Payload m.Text)) <;>
    by_cases hz : GetTraceID ⟨some ⟨t.newTraceID, w.nextSpanID⟩⟩ = "" <;>
    simp [errorCalls, statusCalls, statusOf, receivedLog, processedLog, messageAttrs, hz]

/-- The counter samples after a run. -/
theorem handleText_messagesTotal (env : Env) (m : Message) (w : World) :
    (handleText env m w).2.messagesTotal = fun c s =>
      if c = labelOf (normalizeCommand env.caseTable m.Payload m.Text) ∧
          s = statusOf (env.send
            (responseOf env (normalizeCommand env.caseTable m.Payload m.Text)))
      then w.messagesTotal c s + 1 else w.messagesTotal c s := by
  rcases ht : env.tracer with _ | t <;>
  simp only [handleText, dispatch_eq, runBranch, sendReply_fst, sendReply_messagesTotal, ht,
    StartSpan, Tracer.Start, RecordMessage, World.emit] <;>
  cases env.send (responseOf env (normalizeCommand env.caseTable m.Payload m.Text)) <;>
  simp [statusOf] <;> split_ifs <;> rfl

/-- The histogram observations after a run. -/
theorem handleText_durations (env : Env) (m : Message) (w : World) :
    (handleText env m w).2.messageProcessingDuration = fun c =>
      if c = labelOf (normalizeCommand env.caseTable m.Payload m.Text)
      then w.messageProcessingDuration c ++ [Since env.clock.startMono env.clock.endMono]
      else w.messageProcessingDuration c := by
  rcases ht : env.tracer with _ | t <;>
  simp only [handleText, dispatch_eq, runBranch, sendReply_fst, sendReply_durations, ht,
    StartSpan, Tracer.Start, RecordMessage, World.emit] <;>
  cases env.send (responseOf env (normalizeCommand env.caseTable m.Payload m.Text)) <;>
  simp <;> split_ifs <;> rfl

theorem digitChar_zero : Nat.digitChar 0 = '0' := rfl

theorem toDigitsCore_succ (f n : Nat) (ds : List Char) :
    Nat.toDigitsCore 10 (f + 1) n ds =
      if n / 10 = 0 then Nat.digitChar (n % 10) :: ds
      else Nat.toDigitsCore 10 f (n / 10) (Nat.digitChar (n % 10) :: ds) := by
  simp [Nat.toDigitsCore]

theorem toDigits_lt_10 (x : Nat) (h : x < 10) :
    Nat.toDigits 10 x = [Nat.digitChar (x % 10)] := by
  unfold Nat.toDigits
  rw [toDigitsCore_succ, if_pos (by omega)]

theorem toDigits_lt_100 (x : Nat) (h1 : 10 ≤ x) (h : x < 100) :
    Nat.toDigits 10 x = [Nat.digitChar (x / 10 % 10), Nat.digitChar (x % 10)] := by
  obtain ⟨k, rfl⟩ : ∃ k, x = k + 1 := ⟨x - 1, by omega⟩
  unfold Nat.toDigits
  rw [toDigitsCore_succ, if_neg (by omega), toDigitsCore_succ, if_pos (by omega)]

theorem toDigits_lt_1000 (x : Nat) (h1 : 100 ≤ x) (h : x < 1000) :
    Nat.toDigits 10 x =
      [Nat.digitChar (x / 10 / 10 % 10), Nat.digitChar (x / 10 % 10),
       Nat.digitChar (x % 10)] := by
  obtain ⟨k, rfl⟩ : ∃ k, x = k + 2 := ⟨x - 2, by omega⟩
  unfold Nat.toDigits
  rw [toDigitsCore_succ, if_neg (by omega), toDigitsCore_succ, if_neg (by omega),
    toDigitsCore_succ, if_pos (by omega)]

theorem toDigits_lt_10000 (x : Nat) (h1 : 1000 ≤ x) (h : x < 10000) :
    Nat.toDigits 10 x =
      [Nat.digitChar (x / 10 / 10 / 10 % 10), Nat.digitChar (x / 10 / 10 % 10),
       Nat.digitChar (x / 10 % 10), Nat.digitChar (x % 10)] := by
  obtain ⟨k, rfl⟩ : ∃ k, x = k + 3 := ⟨x - 3, by omega⟩
  unfold Nat.toDigits
  rw [toDigitsCore_succ, if_neg (by omega), toDigitsCore_succ, if_neg (by omega),
    toDigitsCore_succ, if_neg (by omega), toDigitsCore_succ, if_pos (by omega)]

theorem appendInt_two (x : Nat) (h : x < 100) :
    appendInt x 2 = [Nat.digitChar (x / 10), Nat.digitChar (x % 10)] := by
  unfold appendInt
  by_cases h1 : x < 10
  · have h0 : x / 10 = 0 := by omega
    simp [toDigits_lt_10 x h1, h0, digitChar_zero]
  · have h0 : x / 10 % 10 = x / 10 := by omega
    simp [toDigits_lt_100 x (by omega) h, h0]

theorem appendInt_four (x : Nat) (h : x < 10000) :
    appendInt x 4 =
      [Nat.digitChar (x / 1000), Nat.digitChar (x / 100 % 10),
       Nat.digitChar (x / 10 % 10), Nat.digitChar (x % 10)] := by
  unfold appendInt
  have e1 : x / 10 / 10 = x / 100 := by omega
  have e2 : x / 10 / 10 / 10 = x / 1000 := by omega
  by_cases h1 : x < 10
  · have a : x / 1000 = 0 := by omega
    have b : x / 100 % 10 = 0 := by omega
    have c : x / 10 % 10 = 0 := by omega
    simp [toDigits_lt_10 x h1, a, b, c, List.replicate, digitChar_zero]
  · by_cases h2 : x < 100
    · have a : x / 1000 = 0 := by omega
      have b : x / 100 % 10 = 0 := by omega
      simp [toDigits_lt_100 x (by omega) h2, a, b, List.replicate, digitChar_zero]
    · by_cases h3 : x < 1000
      · have a : x / 1000 = 0 := by omega
        simp [toDigits_lt_1000 x (by omega) h3, a, e1, List.replicate, digitChar_zero]
      · have a : x / 1000 % 10 = x / 1000 := by omega
        have e3 : x / 100 / 10 = x / 1000 := by omega
        simp [toDigits_lt_10000 x (by omega) h, a, e1, e3]
/-- The rendering of a calendar time whose fields are in range, position by
position: `YYYY-MM-DD HH:MM:SS`. -/
theorem formatTime_layout (t : CivilTime) (hy : t.year ≤ 9999) (hm : t.month ≤ 12)
    (hd : t.day ≤ 31) (hh : t.hour ≤ 23) (hn : t.minute ≤ 59) (hs : t.second ≤ 59) :
    formatTime t =
      ⟨[Nat.digitChar (t.year / 1000), Nat.digitChar (t.year / 100 % 10),
        Nat.digitChar (t.year / 10 % 10), Nat.digitChar (t.year % 10), '-',
        Nat.digitChar (t.month / 10), Nat.digitChar (t.month % 10), '-',
        Nat.digitChar (t.day / 10), Nat.digitChar (t.day % 10), ' ',
        Nat.digitChar (t.hour / 10), Nat.digitChar (t.hour % 10), ':',
        Nat.digitChar (t.minute / 10), Nat.digitChar (t.minute % 10), ':',
        Nat.digitChar (t.second / 10), Nat.digitChar (t.second % 10)]⟩ := by
  unfold formatTime
  rw [appendInt_four t.year (by omega), appendInt_two t.month (by omega),
    appendInt_two t.day (by omega), appendInt_two t.hour (by omega),
    appendInt_two t.minute (by omega), appendInt_two t.second (by omega)]
  rfl

theorem rootSpan_none (env : Env) (w : World) (h : env.tracer = none) :
    rootSpan env w = Span.noop := by
  simp [rootSpan, StartSpan, h, SpanFromContext, Context.background]

theorem rootSpan_some (env : Env) (w : World) (t : Tracer) (h : env.tracer = some t) :
    rootSpan env w = Span.recording ⟨t.newTraceID, w.nextSpanID⟩ := by
  simp [rootSpan, StartSpan, h, Tracer.Start, Context.background]

theorem normalizeCommand_nopayload (tbl : Char → Char) (t : String) :
    normalizeCommand tbl "" t = ToLower tbl (TrimPrefix t "/") := rfl

theorem trimPrefix_of_not_hasPrefix (s pre : String) (h : HasPrefix s pre = false) :
    TrimPrefix s pre = s := by
  simp [TrimPrefix, h]

theorem trimPrefix_slash_length (s : String) (h : HasPrefix s "/" = true) :
    (TrimPrefix s "/").data.length + 1 = s.data.length := by
  simp only [TrimPrefix, h, if_true, List.length_drop]
  have h1 : ("/" : String).data.length = 1 := rfl
  rw [h1]
  have hpos : 0 < s.data.length := by
    simp only [HasPrefix] at h
    cases hd : s.data with
    | nil => rw [hd] at h; simp at h
    | cons a l => simp
  omega

theorem trimPrefix_subset (s pre : String) :
    ∀ c ∈ (TrimPrefix s pre).data, c ∈ s.data := by
  intro c hc
  unfold TrimPrefix at hc
  split_ifs at hc
  · exact List.mem_of_mem_drop hc
  · exact hc

theorem unicodeToLower_of_ascii (tbl : Char → Char) (c : Char) (h : c.toNat ≤ 127) :
    unicodeToLower tbl c = unicodeToLower (fun x => x) c := by
  unfold unicodeToLower
  rw [if_pos h, if_pos h]

theorem ascii_lower_facts : ∀ k, k < 128 →
    (unicodeToLower (fun x => x) (Char.ofNat k)).toNat ≤ 127 ∧
    unicodeToLower (fun x => x) (unicodeToLower (fun x => x) (Char.ofNat k)) =
      unicodeToLower (fun x => x) (Char.ofNat k) := by
  decide

theorem unicodeToLower_idem_ascii (tbl : Char → Char) (c : Char) (h : c.toNat ≤ 127) :
    unicodeToLower tbl (unicodeToLower tbl c) = unicodeToLower tbl c := by
  have hf := ascii_lower_facts c.toNat (by omega)
  rw [Char.ofNat_toNat] at hf
  rw [unicodeToLower_of_ascii tbl c h, unicodeToLower_of_ascii tbl _ hf.1]
  exact hf.2

theorem toLower_length (tbl : Char → Char) (s : String) :
    (ToLower tbl s).data.length = s.data.length := by
  simp [ToLower]

theorem specNormalize_eq_trim (tbl : Char → Char) (p t : String) (hp : TrimSpace p = p) :
    specNormalize tbl p t = TrimSpace (normalizeCommand tbl p t) := by
  unfold specNormalize normalizeCommand
  simp only [hp]
  by_cases h : p = ""
  · simp [h]
  · simp [h]

theorem recordCalls_callsOf (env : Env) (m : Message) (w : World) :
    recordCalls (callsOf env m w) =
      [(labelOf (normalizeCommand env.caseTable m.Payload m.Text),
        statusOf (env.send (responseOf env (normalizeCommand env.caseTable m.Payload m.Text))),
        Since env.clock.startMono env.clock.endMono)] := by
  rcases ht : env.tracer with _ | t
  · simp [callsOf_none env m w ht, receivedLog]
  · simp [callsOf_some env m w t ht, receivedLog]

theorem replies_callsOf (env : Env) (m : Message) (w : World) :
    replies (callsOf env m w) =
      [responseOf env (normalizeCommand env.caseTable m.Payload m.Text)] := by
  rcases ht : env.tracer with _ | t
  · simp [callsOf_none env m w ht, receivedLog]
  · simp [callsOf_some env m w t ht, receivedLog]

theorem rootAttrs_mem_callsOf (env : Env) (m : Message) (w : World) :
    Event.setAttributes (rootSpan env w)
      [KeyValue.String "command" (labelOf (normalizeCommand env.caseTable m.Payload m.Text)),
       KeyValue.String "response"
        (responseOf env (normalizeCommand env.caseTable m.Payload m.Text))]
      ∈ callsOf env m w := by
  rcases ht : env.tracer with _ | t
  · simp [callsOf_none env m w ht, rootSpan_none env w ht]
  · simp [callsOf_some env m w t ht, rootSpan_some env w t ht]

theorem subMono_nonneg (t u : Int) (h : u ≤ t) : 0 ≤ subMono t u := by
  unfold subMono
  simp only
  split_ifs with h1 h2
  · unfold maxDuration; norm_num
  · omega
  · by_cases hd : toInt64 (t - u) < 0
    · have htu : t = u := by
        by_contra hne
        exact h1 ⟨hd, lt_of_le_of_ne h (Ne.symm hne)⟩
      subst htu
      simp [toInt64] at hd
    · omega

theorem labelOf_cases (c : String) :
    (labelOf c = "hello" ∨ labelOf c = "time" ∨ labelOf c = "unknown") ∧
    (labelOf c = "hello" ↔ c = "hello") ∧ (labelOf c = "time" ↔ c = "time") ∧
    (labelOf c = "unknown" ↔ c ≠ "hello" ∧ c ≠ "time") := by
  unfold labelOf
  by_cases h1 : c = "hello"
  · subst h1; decide
  · by_cases h2 : c = "time"
    · subst h2; decide
    · simp [h1, h2]

/-! ## The claims -/

/-- C8: `IsTracingEnabled` is a function of the two environment values alone. It
returns true exactly when the endpoint value is non-empty or the enable flag is
set, the flag counting as set when `OTEL_TRACING_ENABLED` holds the value
`"true"`; so it is false with an empty endpoint and an unset (empty) flag, and
true with the flag set whatever the endpoint. -/
theorem isTracingEnabled_iff (e f : String) :
    (IsTracingEnabled e f = true ↔ (e ≠ "" ∨ f = "true")) ∧
    IsTracingEnabled "" "" = false ∧
    IsTracingEnabled "" "true" = true ∧
    IsTracingEnabled e "true" = true := by
  refine ⟨?_, by decide, by decide, ?_⟩ <;> simp [IsTracingEnabled]

/-- C3: for every message, state and environment the handler calls
`RecordMessage` once, with a label that is `"hello"`, `"time"` or `"unknown"`:
`"hello"` exactly when the normalized command is `"hello"`, `"time"` exactly when
it is `"time"`, `"unknown"` otherwise. The same label is the `command` attribute
written on the root span, and no other `command` attribute is written; the raw
text `"foobar"` is recorded as `"unknown"`. -/
theorem label_in_closed_set (env : Env) (m : Message) (w : World) :
    ∃ label status d response,
      recordCalls (callsOf env m w) = [(label, status, d)] ∧
      Event.setAttributes (rootSpan env w)
        [KeyValue.String "command" label, KeyValue.String "response" response]
        ∈ callsOf env m w ∧
      (∀ s kvs v, Event.setAttributes s kvs ∈ callsOf env m w →
        KeyValue.String "command" v ∈ kvs → v = label) ∧
      (label = "hello" ∨ label = "time" ∨ label = "unknown") ∧
      (label = "hello" ↔ normalizeCommand env.caseTable m.Payload m.Text = "hello") ∧
      (label = "time" ↔ normalizeCommand env.caseTable m.Payload m.Text = "time") ∧
      (label = "unknown" ↔ normalizeCommand env.caseTable m.Payload m.Text ≠ "hello" ∧
        normalizeCommand env.caseTable m.Payload m.Text ≠ "time") ∧
      (m.Payload = "" → m.Text = "foobar" → label = "unknown") := by
  have hl := labelOf_cases (normalizeCommand env.caseTable m.Payload m.Text)
  refine ⟨labelOf (normalizeCommand env.caseTable m.Payload m.Text),
    statusOf (env.send (responseOf env (normalizeCommand env.caseTable m.Payload m.Text))),
    Since env.clock.startMono env.clock.endMono,
    responseOf env (normalizeCommand env.caseTable m.Payload m.Text),
    ?_, ?_, ?_, hl.1, hl.2.1, hl.2.2.1, hl.2.2.2, ?_⟩
  · rcases ht : env.tracer with _ | t
    · simp [callsOf_none env m w ht, receivedLog]
    · simp [callsOf_some env m w t ht, receivedLog]
  · rcases ht : env.tracer with _ | t
    · simp [callsOf_none env m w ht, rootSpan_none env w ht]
    · simp [callsOf_some env m w t ht, rootSpan_some env w t ht]
  · intro s kvs v hmem hv
    rcases ht : env.tracer with _ | t
    · simp [callsOf_none env m w ht, receivedLog, messageAttrs, mem_errorCalls,
        mem_statusCalls] at hmem
      rcases hmem with ⟨_, rfl⟩ | ⟨_, rfl⟩
      · simp at hv
      · simpa using hv
    · simp [callsOf_some env m w t ht, receivedLog, messageAttrs, mem_errorCalls,
        mem_statusCalls, mem_processedLog] at hmem
      rcases hmem with ⟨_, rfl⟩ | ⟨_, rfl⟩
      · simp at hv
      · simpa using hv
  · intro hp htx
    have hn : normalizeCommand env.caseTable m.Payload m.Text = "foobar" := by
      rw [hp, htx]; rfl
    rw [hn]; decide

/-- C4: for every message, state and environment, with `r` the reply sent, the
handler returns exactly the outcome of the send of `r`; the status handed to
`RecordMessage` is `"error"` exactly when that outcome is an error and
`"success"` exactly when it is nil; when the send failed with `e` the root span
gets `RecordError(e)` and `SetStatus(Error, e.Error())` and no `Ok` status, and
when it succeeded the root span gets `SetStatus(Ok, "")` and neither an error
status nor a recorded error. Nothing here depends on the branch taken. -/
theorem status_follows_send (env : Env) (m : Message) (w : World) :
    ∃ label status d r,
      replies (callsOf env m w) = [r] ∧
      (handleText env m w).1 = env.send r ∧
      recordCalls (callsOf env m w) = [(label, status, d)] ∧
      (status = "error" ↔ (handleText env m w).1 ≠ none) ∧
      (status = "success" ↔ (handleText env m w).1 = none) ∧
      (∀ e, (handleText env m w).1 = some e →
        Event.recordError (rootSpan env w) e ∈ callsOf env m w ∧
        Event.setStatus (rootSpan env w) Code.Error e.msg ∈ callsOf env m w ∧
        ∀ desc, Event.setStatus (rootSpan env w) Code.Ok desc ∉ callsOf env m w) ∧
      ((handleText env m w).1 = none →
        Event.setStatus (rootSpan env w) Code.Ok "" ∈ callsOf env m w ∧
        (∀ desc, Event.setStatus (rootSpan env w) Code.Error desc ∉ callsOf env m w) ∧
        ∀ e, Event.recordError (rootSpan env w) e ∉ callsOf env m w) := by
  refine ⟨labelOf (normalizeCommand env.caseTable m.Payload m.Text),
    statusOf (env.send (responseOf env (normalizeCommand env.caseTable m.Payload m.Text))),
    Since env.clock.startMono env.clock.endMono,
    responseOf env (normalizeCommand env.caseTable m.Payload m.Text), ?_, ?_, ?_, ?_, ?_, ?_, ?_⟩
  · rcases ht : env.tracer with _ | t
    · simp [callsOf_none env m w ht, receivedLog]
    · simp [callsOf_some env m w t ht, receivedLog]
  · exact handleText_fst env m w
  · rcases ht : env.tracer with _ | t
    · simp [callsOf_none env m w ht, receivedLog]
    · simp [callsOf_some env m w t ht, receivedLog]
  · rw [handleText_fst]
    cases env.send (responseOf env (normalizeCommand env.caseTable m.Payload m.Text)) <;>
      simp [statusOf]
  · rw [handleText_fst]
    cases env.send (responseOf env (normalizeCommand env.caseTable m.Payload m.Text)) <;>
      simp [statusOf]
  · intro e he
    rw [handleText_fst] at he
    rcases ht : env.tracer with _ | t
    · simp [callsOf_none env m w ht, rootSpan_none env w ht, receivedLog, mem_errorCalls,
        mem_statusCalls, he]
    · simp [callsOf_some env m w t ht, rootSpan_some env w t ht, receivedLog, mem_errorCalls,
        mem_statusCalls, mem_processedLog, he]
  · intro he
    rw [handleText_fst] at he
    rcases ht : env.tracer with _ | t
    · simp [callsOf_none env m w ht, rootSpan_none env w ht, receivedLog, mem_errorCalls,
        mem_statusCalls, he]
    · simp [callsOf_some env m w t ht, rootSpan_some env w t ht, receivedLog, mem_errorCalls,
        mem_statusCalls, mem_processedLog, he]

/-- C5: with a monotonic clock (the reading taken by `time.Since` is not before
the reading of `startTime`), one run of the handler, whatever the branch and the
send outcome, sends exactly one reply, calls `RecordMessage` exactly once with
the resolved label, the status of the send and a duration that is not negative;
it raises the `kbot_messages_total` sample of that (label, status) by 1 and
leaves every other sample as it was, and it appends that one duration to the
histogram series of that label and changes no other series. -/
theorem one_reply_one_sample (env : Env) (m : Message) (w : World)
    (hmono : env.clock.startMono ≤ env.clock.endMono) :
    ∃ label status d r,
      replies (callsOf env m w) = [r] ∧
      recordCalls (callsOf env m w) = [(label, status, d)] ∧
      label = (if normalizeCommand env.caseTable m.Payload m.Text = "hello" then "hello"
        else if normalizeCommand env.caseTable m.Payload m.Text = "time" then "time"
        else "unknown") ∧
      status = (if ((handleText env m w).1).isSome then "error" else "success") ∧
      0 ≤ d ∧
      (∀ c s, (handleText env m w).2.messagesTotal c s =
        if c = label ∧ s = status then w.messagesTotal c s + 1 else w.messagesTotal c s) ∧
      (∀ c, (handleText env m w).2.messageProcessingDuration c =
        if c = label then w.messageProcessingDuration c ++ [d]
        else w.messageProcessingDuration c) := by
  refine ⟨labelOf (normalizeCommand env.caseTable m.Payload m.Text),
    statusOf (env.send (responseOf env (normalizeCommand env.caseTable m.Payload m.Text))),
    Since env.clock.startMono env.clock.endMono,
    responseOf env (normalizeCommand env.caseTable m.Payload m.Text),
    ?_, ?_, rfl, ?_, subMono_nonneg _ _ hmono, ?_, ?_⟩
  · rcases ht : env.tracer with _ | t
    · simp [callsOf_none env m w ht, receivedLog]
    · simp [callsOf_some env m w t ht, receivedLog]
  · rcases ht : env.tracer with _ | t
    · simp [callsOf_none env m w ht, receivedLog]
    · simp [callsOf_some env m w t ht, receivedLog]
  · rw [handleText_fst]; rfl
  · intro c s
    rw [handleText_messagesTotal]
  · intro c
    rw [handleText_durations]

/-- A run of the handler on a sample message under a monotonic clock. -/
theorem one_reply_one_sample_witness :
    sampleEnv.clock.startMono ≤ sampleEnv.clock.endMono ∧
    ∃ label status d r,
      replies (callsOf sampleEnv ⟨⟨7, "ann"⟩, "/Time", ""⟩ sampleWorld) = [r] ∧
      recordCalls (callsOf sampleEnv ⟨⟨7, "ann"⟩, "/Time", ""⟩ sampleWorld) =
        [(label, status, d)] ∧
      label = (if normalizeCommand sampleEnv.caseTable "" "/Time" = "hello" then "hello"
        else if normalizeCommand sampleEnv.caseTable "" "/Time" = "time" then "time"
        else "unknown") ∧
      status = (if ((handleText sampleEnv ⟨⟨7, "ann"⟩, "/Time", ""⟩ sampleWorld).1).isSome
        then "error" else "success") ∧
      0 ≤ d ∧
      (∀ c s, (handleText sampleEnv ⟨⟨7, "ann"⟩, "/Time", ""⟩ sampleWorld).2.messagesTotal c s =
        if c = label ∧ s = status then sampleWorld.messagesTotal c s + 1
        else sampleWorld.messagesTotal c s) ∧
      (∀ c, (handleText sampleEnv ⟨⟨7, "ann"⟩, "/Time", ""⟩
          sampleWorld).2.messageProcessingDuration c =
        if c = label then sampleWorld.messageProcessingDuration c ++ [d]
        else sampleWorld.messageProcessingDuration c) :=
  ⟨by decide, one_reply_one_sample sampleEnv ⟨⟨7, "ann"⟩, "/Time", ""⟩ sampleWorld (by decide)⟩

/-- C7, the claim fails: on the message `hello` the run without a tracer and
the run with one differ in more than span operations. With the span operations
removed the two call sequences are still different: the run without a tracer
logs one line, the receipt without a trace id, and the run with a tracer logs
the receipt with the trace id and a completion line. -/
theorem tracer_changes_log_lines :
    withoutSpanOps (callsOf (sampleEnv.withTracer none) ⟨⟨7, "ann"⟩, "hello", ""⟩
        sampleWorld) ≠
      withoutSpanOps (callsOf sampleEnv ⟨⟨7, "ann"⟩, "hello", ""⟩ sampleWorld) ∧
    logCalls (callsOf (sampleEnv.withTracer none) ⟨⟨7, "ann"⟩, "hello", ""⟩ sampleWorld) =
      [Event.log "Received message from %s: %s" [LogArg.str "ann", LogArg.str "hello"]] ∧
    logCalls (callsOf sampleEnv ⟨⟨7, "ann"⟩, "hello", ""⟩ sampleWorld) =
      [Event.log "[TraceID: %s] Received message from %s: %s"
        [LogArg.str "4bf92f3577b34da6a3ce929d0e0e4736", LogArg.str "ann",
         LogArg.str "hello"],
       Event.log "[TraceID: %s] Processed %s command in %v (status: %s)"
        [LogArg.str "4bf92f3577b34da6a3ce929d0e0e4736", LogArg.str "hello",
         LogArg.duration 150, LogArg.str "success"]] := by
  refine ⟨?_, ?_, ?_⟩ <;> decide

/-- C7, amended: for every message, state, environment and tracer, the run with
no tracer installed and the run with the tracer installed return the same
error, send the same replies, hand the same arguments to `RecordMessage` (so
they resolve the same command), write the same attribute lists (message,
command, response) and leave the same metric samples. What differs are the span
operations and the log lines: the calls that are neither are the same sequence
in both runs; the run without a tracer logs the receipt line without a trace
id, and the run with a tracer logs, when the trace id is non-empty, the receipt
line and a completion line that both carry it. -/
theorem tracer_changes_only_spans_and_logs (env : Env) (t : Tracer) (m : Message)
    (w : World) :
    (handleText (env.withTracer none) m w).1 =
      (handleText (env.withTracer (some t)) m w).1 ∧
    replies (callsOf (env.withTracer none) m w) =
      replies (callsOf (env.withTracer (some t)) m w) ∧
    recordCalls (callsOf (env.withTracer none) m w) =
      recordCalls (callsOf (env.withTracer (some t)) m w) ∧
    attrWrites (callsOf (env.withTracer none) m w) =
      attrWrites (callsOf (env.withTracer (some t)) m w) ∧
    effects (callsOf (env.withTracer none) m w) =
      effects (callsOf (env.withTracer (some t)) m w) ∧
    (handleText (env.withTracer none) m w).2.messagesTotal =
      (handleText (env.withTracer (some t)) m w).2.messagesTotal ∧
    (handleText (env.withTracer none) m w).2.messageProcessingDuration =
      (handleText (env.withTracer (some t)) m w).2.messageProcessingDuration ∧
    logCalls (callsOf (env.withTracer none) m w) =
      [Event.log "Received message from %s: %s"
        [LogArg.str m.Sender.Username, LogArg.str m.Text]] ∧
    (GetTraceID ⟨some ⟨t.newTraceID, w.nextSpanID⟩⟩ ≠ "" →
      ∃ label status d,
        recordCalls (callsOf (env.withTracer (some t)) m w) = [(label, status, d)] ∧
        logCalls (callsOf (env.withTracer (some t)) m w) =
          [Event.log "[TraceID: %s] Received message from %s: %s"
            [LogArg.str (GetTraceID ⟨some ⟨t.newTraceID, w.nextSpanID⟩⟩),
             LogArg.str m.Sender.Username, LogArg.str m.Text],
           Event.log "[TraceID: %s] Processed %s command in %v (status: %s)"
            [LogArg.str (GetTraceID ⟨some ⟨t.newTraceID, w.nextSpanID⟩⟩),
             LogArg.str label, LogArg.duration d, LogArg.str status]]) := by
  have h0 : (env.withTracer none).tracer = none := rfl
  have h1 : (env.withTracer (some t)).tracer = some t := rfl
  refine ⟨?_, ?_, ?_, ?_, ?_, ?_, ?_, ?_, ?_⟩
  · rw [handleText_fst, handleText_fst]; rfl
  · rw [callsOf_none _ m w h0, callsOf_some _ m w t h1]
    simp [receivedLog, Env.withTracer, responseOf]
  · rw [callsOf_none _ m w h0, callsOf_some _ m w t h1]
    simp [receivedLog, Env.withTracer, responseOf]
  · rw [callsOf_none _ m w h0, callsOf_some _ m w t h1]
    simp [receivedLog, Env.withTracer, responseOf]
  · rw [callsOf_none _ m w h0, callsOf_some _ m w t h1]
    simp [receivedLog, Env.withTracer, responseOf, Event.isSpanOp, Event.isLog]
  · rw [handleText_messagesTotal, handleText_messagesTotal]; rfl
  · rw [handleText_durations, handleText_durations]; rfl
  · rw [callsOf_none _ m w h0]
    simp [receivedLog, Event.isLog]
  · intro hz
    refine ⟨_, _, _, recordCalls_callsOf _ m w, ?_⟩
    rw [callsOf_some _ m w t h1]
    simp [receivedLog, processedLog, Event.isLog, hz, Env.withTracer]

/-- C9: for every message, state and environment the handler sends one reply
`r` and writes `command` and `response = r` on the root span. When the message
resolves to `"hello"`, `r` is `"Hello I'm Kbot "`, the running version, `"!"`;
when it resolves to `"unknown"`, `r` is the fixed help text; when it resolves to
`"time"`, `r` is `"Current time is "` followed by the wall clock reading in the
layout `2006-01-02 15:04:05`, which for calendar fields in range is four year
digits, `-`, two month digits, `-`, two day digits, a blank, and two digits each
for hour, minute and second separated by `:`. -/
theorem reply_text_per_branch (env : Env) (m : Message) (w : World) :
    ∃ label status d r,
      replies (callsOf env m w) = [r] ∧
      recordCalls (callsOf env m w) = [(label, status, d)] ∧
      Event.setAttributes (rootSpan env w)
        [KeyValue.String "command" label, KeyValue.String "response" r]
        ∈ callsOf env m w ∧
      (label = "hello" → r = "Hello I\x27m Kbot " ++ env.appVersion ++ "!") ∧
      (label = "unknown" → r = "Hello from Kbot! Try hello or time") ∧
      (label = "time" → r = "Current time is " ++ formatTime env.clock.wall) ∧
      (env.clock.wall.year ≤ 9999 → env.clock.wall.month ≤ 12 → env.clock.wall.day ≤ 31 →
        env.clock.wall.hour ≤ 23 → env.clock.wall.minute ≤ 59 →
        env.clock.wall.second ≤ 59 →
        formatTime env.clock.wall =
          ⟨[Nat.digitChar (env.clock.wall.year / 1000),
            Nat.digitChar (env.clock.wall.year / 100 % 10),
            Nat.digitChar (env.clock.wall.year / 10 % 10),
            Nat.digitChar (env.clock.wall.year % 10), '-',
            Nat.digitChar (env.clock.wall.month / 10),
            Nat.digitChar (env.clock.wall.month % 10), '-',
            Nat.digitChar (env.clock.wall.day / 10),
            Nat.digitChar (env.clock.wall.day % 10), ' ',
            Nat.digitChar (env.clock.wall.hour / 10),
            Nat.digitChar (env.clock.wall.hour % 10), ':',
            Nat.digitChar (env.clock.wall.minute / 10),
            Nat.digitChar (env.clock.wall.minute % 10), ':',
            Nat.digitChar (env.clock.wall.second / 10),
            Nat.digitChar (env.clock.wall.second % 10)]⟩) := by
  have hl := labelOf_cases (normalizeCommand env.caseTable m.Payload m.Text)
  refine ⟨labelOf (normalizeCommand env.caseTable m.Payload m.Text),
    statusOf (env.send (responseOf env (normalizeCommand env.caseTable m.Payload m.Text))),
    Since env.clock.startMono env.clock.endMono,
    responseOf env (normalizeCommand env.caseTable m.Payload m.Text),
    ?_, ?_, ?_, ?_, ?_, ?_, formatTime_layout env.clock.wall⟩
  · rcases ht : env.tracer with _ | t
    · simp [callsOf_none env m w ht, receivedLog]
    · simp [callsOf_some env m w t ht, receivedLog]
  · rcases ht : env.tracer with _ | t
    · simp [callsOf_none env m w ht, receivedLog]
    · simp [callsOf_some env m w t ht, receivedLog]
  · rcases ht : env.tracer with _ | t
    · simp [callsOf_none env m w ht, rootSpan_none env w ht]
    · simp [callsOf_some env m w t ht, rootSpan_some env w t ht]
  · intro h
    rw [hl.2.1] at h
    simp [responseOf, h]
  · intro h
    rw [hl.2.2.2] at h
    simp [responseOf, h.1, h.2]
  · intro h
    rw [hl.2.2.1] at h
    rw [h]; rfl

/-- C6: in the calls of one run of the handler, for every message, state and
environment: every span that is started is started once and closed exactly once;
no attribute, error or status write to a span comes after its close, and its
start comes before every write and before its close; a nested span is closed
before its parent (no close of the child after the close of the parent): the
child is closed and the parent is closed after it; `RecordMessage` is called
exactly once, that call comes before the close of the root span and none comes
after it, and the close of the root span is the last call. With a tracer
installed the spans started are the root `handle_message` and one child of it
named `command_hello`, `command_time` or `command_default`; without a tracer no
span is started. -/
theorem spans_closed_once_in_order (env : Env) (m : Message) (w : World) :
    (∀ sc ∈ opened (callsOf env m w),
      (opened (callsOf env m w)).count sc = 1 ∧
      (callsOf env m w).countP (Event.closes sc) = 1 ∧
      noneAfter (Event.closes sc) (Event.writesTo sc) (callsOf env m w) = true ∧
      noneAfter (Event.writesTo sc) (Event.starts sc) (callsOf env m w) = true ∧
      noneAfter (Event.closes sc) (Event.starts sc) (callsOf env m w) = true ∧
      occursBefore (Event.starts sc) (Event.closes sc) (callsOf env m w) = true) ∧
    (∀ child name parent kind,
      Event.spanStart child name (some parent) kind ∈ callsOf env m w →
      noneAfter (Event.closes parent) (Event.closes child) (callsOf env m w) = true ∧
      occursBefore (Event.closes child) (Event.closes parent) (callsOf env m w) = true ∧
      child ≠ parent) ∧
    (∀ root name kind, Event.spanStart root name none kind ∈ callsOf env m w →
      noneAfter (Event.closes root) Event.isRecord (callsOf env m w) = true ∧
      occursBefore Event.isRecord (Event.closes root) (callsOf env m w) = true ∧
      (callsOf env m w).getLast? = some (Event.spanEnd (Span.recording root))) ∧
    (callsOf env m w).countP Event.isRecord = 1 ∧
    (∀ t, env.tracer = some t → ∃ root child name,
      (callsOf env m w).filter Event.isStart =
        [Event.spanStart root "handle_message" none SpanKind.Server,
         Event.spanStart child name (some root) SpanKind.Internal] ∧
      (name = "command_hello" ∨ name = "command_time" ∨ name = "command_default")) ∧
    (env.tracer = none → opened (callsOf env m w) = []) := by
  rcases ht : env.tracer with _ | t
  · have hc := callsOf_none env m w ht
    simp only [] at hc
    rw [hc]
    cases env.send (responseOf env (normalizeCommand env.caseTable m.Payload m.Text)) <;>
      simp [opened, errorCalls, statusCalls, receivedLog, List.countP_cons, Event.isRecord]
  · have hc := callsOf_some env m w t ht
    simp only [] at hc
    rw [hc]
    have hne : w.nextSpanID + 1 ≠ w.nextSpanID := by omega
    have hne2 : w.nextSpanID ≠ w.nextSpanID + 1 := by omega
    cases env.send (responseOf env (normalizeCommand env.caseTable m.Payload m.Text)) <;>
      by_cases hz : GetTraceID ⟨some ⟨t.newTraceID, w.nextSpanID⟩⟩ = "" <;>
      simp only [errorCalls, statusCalls, processedLog, receivedLog, hz, ne_eq, not_true_eq_false,
        not_false_eq_true, if_true, if_false, List.append_nil, List.nil_append,
        List.cons_append, List.append_assoc] <;>
      (refine ⟨?_, ?_, ?_, ?_, ?_, ?_⟩ <;>
      [(intro sc hsc
        simp [opened] at hsc
        rcases hsc with rfl | rfl <;>
          simp [opened, noneAfter, occursBefore, Event.closes, Event.writesTo, Event.starts,
            List.count_cons, List.countP_cons, hne, hne2]);
       (intro child name parent kind hmem
        simp at hmem
        obtain ⟨rfl, rfl, rfl, rfl⟩ := hmem
        simp [noneAfter, occursBefore, Event.closes, hne, hne2]);
       (intro root name kind hmem
        simp at hmem
        obtain ⟨rfl, rfl, rfl⟩ := hmem
        simp [noneAfter, occursBefore, Event.closes, Event.isRecord, hne, hne2]);
       simp [List.countP_cons, Event.isRecord];
       (intro t2 _
        refine ⟨⟨t.newTraceID, w.nextSpanID⟩, ⟨t.newTraceID, w.nextSpanID + 1⟩,
          spanNameOf (normalizeCommand env.caseTable m.Payload m.Text), ?_, ?_⟩
        · simp [Event.isStart, List.filter_cons]
        · unfold spanNameOf
          split_ifs <;> simp);
       simp])

/-- C1, the claim fails: with no payload the text `//hello` normalizes to
`/hello`, and normalizing `/hello` gives `hello`, whatever the case table; so
normalization is not idempotent. -/
theorem normalize_twice_differs :
    (∀ tbl : Char → Char, normalizeCommand tbl "" "//hello" = "/hello") ∧
    (∀ tbl : Char → Char,
      normalizeCommand tbl "" (normalizeCommand tbl "" "//hello") = "hello") ∧
    ¬ (∀ (tbl : Char → Char) (t : String),
      normalizeCommand tbl "" (normalizeCommand tbl "" t) = normalizeCommand tbl "" t) := by
  refine ⟨fun _ => rfl, fun _ => rfl, ?_⟩
  intro h
  have h1 := h (fun c => c) "//hello"
  revert h1
  decide

/-- C1, amended: for every raw text `t` (no payload) whose characters above
ASCII are sent by the case table to characters that lowercasing leaves alone
(nothing is asked of an ASCII text), normalizing the normalized text gives the
same string if and only if the normalized text does not begin with `/`. -/
theorem normalize_idempotent_iff (tbl : Char → Char) (t : String)
    (hlow : ∀ c ∈ t.data, 127 < c.toNat → unicodeToLower tbl (tbl c) = tbl c) :
    normalizeCommand tbl "" (normalizeCommand tbl "" t) = normalizeCommand tbl "" t ↔
      HasPrefix (normalizeCommand tbl "" t) "/" = false := by
  rw [normalizeCommand_nopayload tbl (normalizeCommand tbl "" t), normalizeCommand_nopayload]
  have hsub : ∀ c ∈ (TrimPrefix t "/").data, c ∈ t.data := trimPrefix_subset t "/"
  generalize TrimPrefix t "/" = s at hsub ⊢
  constructor
  · intro h
    by_contra hp
    simp only [Bool.not_eq_false] at hp
    have hlen := congrArg (fun x : String => x.data.length) h
    simp only [toLower_length] at hlen
    have := trimPrefix_slash_length _ hp
    rw [toLower_length] at this
    omega
  · intro hp
    rw [trimPrefix_of_not_hasPrefix _ _ hp]
    simp only [ToLower, List.map_map]
    congr 1
    apply List.map_congr_left
    intro c hc
    by_cases ha : c.toNat ≤ 127
    · exact unicodeToLower_idem_ascii tbl c ha
    · have hc2 : unicodeToLower tbl c = tbl c := by
        unfold unicodeToLower
        rw [if_neg ha]
      simp only [Function.comp_apply, hc2]
      exact hlow c (hsub c hc) (by omega)

/-- The amended idempotence at the text `/Héllo`, with a case table that leaves
`é` alone. -/
theorem normalize_idempotent_iff_witness :
    (∀ c ∈ "/Héllo".data, 127 < c.toNat →
      unicodeToLower (fun c => c) ((fun c => c) c) = (fun c => c) c) ∧
    (normalizeCommand (fun c => c) "" (normalizeCommand (fun c => c) "" "/Héllo") =
        normalizeCommand (fun c => c) "" "/Héllo" ↔
      HasPrefix (normalizeCommand (fun c => c) "" "/Héllo") "/" = false) :=
  ⟨by decide, normalize_idempotent_iff (fun c => c) "/Héllo" (by decide)⟩

/-- C2, the claim fails: the message with text `/time extra-args` and payload
`extra-args` is recorded under `unknown` and answered with the help text, and
in no environment is it recorded under `time`. -/
theorem time_with_args_not_time :
    recordCalls (callsOf sampleEnv ⟨⟨7, "ann"⟩, "/time extra-args", "extra-args"⟩
      sampleWorld) = [("unknown", "success", 150)] ∧
    replies (callsOf sampleEnv ⟨⟨7, "ann"⟩, "/time extra-args", "extra-args"⟩
      sampleWorld) = ["Hello from Kbot! Try hello or time"] ∧
    ¬ ∃ (env : Env) (w : World) (status : String) (d : Int),
      recordCalls (callsOf env ⟨⟨7, "ann"⟩, "/time extra-args", "extra-args"⟩ w) =
        [("time", status, d)] := by
  refine ⟨?_, ?_, ?_⟩
  · rw [recordCalls_callsOf]; decide
  · rw [replies_callsOf]; decide
  · rintro ⟨env, w, status, d, h⟩
    rw [recordCalls_callsOf] at h
    have hn : normalizeCommand env.caseTable "extra-args" "/time extra-args" = "extra-args" :=
      rfl
    simp only [hn] at h
    revert h
    simp [labelOf]

/-- C2, amended: for every environment, sender and state, the message with text
`/time extra-args` and payload `extra-args` takes its command from the payload,
which is no known command: it is recorded under `unknown`, the root span gets
`command = unknown`, and the reply is the fixed help text. The message `/time`
with no payload is recorded under `time` and answered with `Current time is `
followed by the formatted time. -/
theorem time_with_args_resolves_from_payload (env : Env) (u : User) (w : World) :
    (∃ status d, recordCalls (callsOf env ⟨u, "/time extra-args", "extra-args"⟩ w) =
      [("unknown", status, d)]) ∧
    replies (callsOf env ⟨u, "/time extra-args", "extra-args"⟩ w) =
      ["Hello from Kbot! Try hello or time"] ∧
    Event.setAttributes (rootSpan env w)
      [KeyValue.String "command" "unknown",
       KeyValue.String "response" "Hello from Kbot! Try hello or time"]
      ∈ callsOf env ⟨u, "/time extra-args", "extra-args"⟩ w ∧
    (∃ status d, recordCalls (callsOf env ⟨u, "/time", ""⟩ w) = [("time", status, d)]) ∧
    replies (callsOf env ⟨u, "/time", ""⟩ w) =
      ["Current time is " ++ formatTime env.clock.wall] := by
  have hn : normalizeCommand env.caseTable "extra-args" "/time extra-args" = "extra-args" :=
    rfl
  have hn2 : normalizeCommand env.caseTable "" "/time" = "time" := rfl
  have hl : labelOf "extra-args" = "unknown" := by decide
  have hl2 : labelOf "time" = "time" := by decide
  have hr : responseOf env "extra-args" = "Hello from Kbot! Try hello or time" := by
    simp [responseOf]
  have hr2 : responseOf env "time" = "Current time is " ++ formatTime env.clock.wall := by
    simp [responseOf]
  refine ⟨?_, ?_, ?_, ?_, ?_⟩
  · rw [recordCalls_callsOf]; simp only [hn, hl]
    exact ⟨_, _, rfl⟩
  · rw [replies_callsOf]; simp only [hn, hr]
  · have h := rootAttrs_mem_callsOf env ⟨u, "/time extra-args", "extra-args"⟩ w
    simp only [hn, hl, hr] at h
    exact h
  · rw [recordCalls_callsOf]; simp only [hn2, hl2]
    exact ⟨_, _, rfl⟩
  · rw [replies_callsOf]; simp only [hn2, hr2]

/-- C10, the claim fails: with no payload the text ` hello ` (blanks around it)
is left as it is by the handler, while the reference definition gives `hello`;
the handler records that message under `unknown`. -/
theorem normalize_differs_from_reference :
    (∀ tbl : Char → Char, normalizeCommand tbl "" " hello " = " hello ") ∧
    (∀ tbl : Char → Char, specNormalize tbl "" " hello " = "hello") ∧
    recordCalls (callsOf sampleEnv ⟨⟨7, "ann"⟩, " hello ", ""⟩ sampleWorld) =
      [("unknown", "success", 150)] := by
  refine ⟨fun _ => rfl, fun _ => rfl, ?_⟩
  rw [recordCalls_callsOf]; decide

/-- C10, amended: for every payload `p` and raw text `t` the handler's
normalization is the trimmed payload if that is non-empty, otherwise `t` with
one leading `/` stripped and not trimmed, then lowercased. When the payload has
no surrounding white space the reference definition gives the handler's result
trimmed. With no payload `HELLO` and `/Hello` are recorded under `hello`, and
` hello ` under `unknown`. -/
theorem normalize_refines_amended (env : Env) (u : User) (w : World) (p t : String) :
    normalizeCommand env.caseTable p t = amendedNormalize env.caseTable p t ∧
    (TrimSpace p = p →
      specNormalize env.caseTable p t = TrimSpace (normalizeCommand env.caseTable p t)) ∧
    (∃ status d, recordCalls (callsOf env ⟨u, "HELLO", ""⟩ w) = [("hello", status, d)]) ∧
    (∃ status d, recordCalls (callsOf env ⟨u, "/Hello", ""⟩ w) = [("hello", status, d)]) ∧
    (∃ status d, recordCalls (callsOf env ⟨u, " hello ", ""⟩ w) =
      [("unknown", status, d)]) := by
  have h1 : normalizeCommand env.caseTable "" "HELLO" = "hello" := rfl
  have h2 : normalizeCommand env.caseTable "" "/Hello" = "hello" := rfl
  have h3 : normalizeCommand env.caseTable "" " hello " = " hello " := rfl
  have hl : labelOf "hello" = "hello" := by decide
  have hl3 : labelOf " hello " = "unknown" := by decide
  refine ⟨?_, specNormalize_eq_trim env.caseTable p t, ?_, ?_, ?_⟩
  · unfold normalizeCommand amendedNormalize
    by_cases h : TrimSpace p = "" <;> simp [h]
  · rw [recordCalls_callsOf]; simp only [h1, hl]
    exact ⟨_, _, rfl⟩
  · rw [recordCalls_callsOf]; simp only [h2, hl]
    exact ⟨_, _, rfl⟩
  · rw [recordCalls_callsOf]; simp only [h3, hl3]
    exact ⟨_, _, rfl⟩

end Kbot
